import Mathlib

/-!
# Verification of the go-coinbase-trade request/response pipeline

A shallow embedding of the parts of the `coinbasetrade` Go package that the
specification's claims are about: credential resolution (`NewClient`), the
reflection-driven parameter encoder (`parametersToValues`), the non-200 error
path of `Client.Request`, the request signer (`Client.sign`, HMAC-SHA256),
the pagination state machine (`Pagination.Next` / `Pagination.NextPage`),
batch cancellation (`Client.CancelOrders`), and the defaulting logic of
`Client.CreateOrder`, `Client.ListOrders` and `Client.ListProducts`.

Go machine integers are modelled as `Int` (no overflow is reachable in the
embedded code paths), Go byte slices as `List Nat` of values `< 256`, Go maps
as insertion-ordered association lists observed only through lookup, and Go
strings as Lean strings (converted to UTF-8 bytes where the code hashes them).
-/

namespace CoinbaseTrade

/-! ## Credentials: `ClientConfig` and `NewClient` (client.go)

`NewClient` copies the explicit config (or a blank struct when `nil` was
passed), reads the four `COINBASE_*` environment variables into the new
client, and then walks `[cc, defaults]` filling in only the fields that are
still empty.  The environment is modelled as a `ClientConfig` record holding
the values of `COINBASE_HOST/PATH/KEY/SECRET` (`""` for an unset variable,
exactly what `os.Getenv` returns). -/

/-- The four credential fields shared by `ClientConfig` and the `Client`
(client.go: `Host`, `Path`, `Key`, `Secret`). -/
structure ClientConfig where
  Host : String := ""
  Path : String := ""
  Key : String := ""
  Secret : String := ""
deriving DecidableEq

/-- One pass of the fill loop in `NewClient`: every field of `c` that is the
empty string is replaced by the corresponding field of `v`. -/
def fillIfEmpty (c v : ClientConfig) : ClientConfig where
  Host := if c.Host = "" then v.Host else c.Host
  Path := if c.Path = "" then v.Path else c.Path
  Key := if c.Key = "" then v.Key else c.Key
  Secret := if c.Secret = "" then v.Secret else c.Secret

/-- The hardcoded production defaults built inside `NewClient`. -/
def defaultClient : ClientConfig where
  Host := "https://coinbase.com"
  Path := "/api/v3/brokerage"

/-- Source `NewClient` (client.go): start from the environment values, then fill
still-empty fields from the explicit config `cc`, then from the defaults.
`config = none` models a `nil` config pointer. -/
def NewClient (config : Option ClientConfig) (env : ClientConfig) : ClientConfig :=
  let cc : ClientConfig := match config with
    | none => {}
    | some cfg => cfg
  fillIfEmpty (fillIfEmpty env cc) defaultClient

/-! ## Parameter encoder: `parametersToValues` (api_helpers.go)

A parameters struct is modelled as the list of its fields, each carrying its
`cbt` tag (`""` for an untagged field) and a value of one of the five kinds
the encoder handles.  `time.Time` is modelled as a `Nat` instant with the Go
zero time at `0` (`Time.IsZero`), and `decimal.Decimal` as coefficient and
exponent with `Decimal.IsZero` true exactly when the coefficient is zero,
matching shopspring's `IsZero`.  Their string renderings (`RFC3339`,
`Decimal.String`) are abstracted by injective placeholder renderings; no
claim inspects those strings, only presence and keys. -/

/-- Go `time.Time`, reduced to what the encoder observes: an instant, zero
meaning the Go zero time. -/
structure GoTime where
  instant : Nat := 0
deriving DecidableEq

/-- Source `timeToString` (api_helpers.go): stands for the RFC3339 rendering of a
time; the rendering itself is not consulted by any claim. -/
def timeToString (t : GoTime) : String :=
  "time:" ++ toString t.instant

/-- Shopspring `decimal.Decimal`: coefficient and exponent; the numeric value is
`coeff * 10 ^ exp`. -/
structure GoDecimal where
  coeff : Int := 0
  exp : Int := 0
deriving DecidableEq

/-- Stands for shopspring's `Decimal.String`; not consulted by any claim. -/
def decimalToString (d : GoDecimal) : String :=
  toString d.coeff ++ "e" ++ toString d.exp

/-- The value kinds the `switch` in `parametersToValues` handles. -/
inductive FieldValue where
  | str (s : String)
  | int (i : Int)
  | strSlice (l : List String)
  | time (t : GoTime)
  | dec (d : GoDecimal)
deriving DecidableEq

/-- One struct field as the encoder's reflection loop sees it: the `cbt` tag
(`""` when the field has none) and the field value. -/
structure Field where
  tag : String
  val : FieldValue
deriving DecidableEq

/-- The body of the reflection loop for one field: append the key/value pairs
this field contributes to the accumulated `url.Values` (modelled as an
ordered list of pairs). -/
def encodeField (u : List (String × String)) (f : Field) : List (String × String) :=
  if f.tag = "" then u
  else match f.val with
    | .str s => if s ≠ "" then u ++ [(f.tag, s)] else u
    | .int i => if i ≠ 0 then u ++ [(f.tag, toString i)] else u
    | .strSlice l => if 0 < l.length then u ++ l.map (fun s => (f.tag, s)) else u
    | .time t => if t ≠ {} then u ++ [(f.tag, timeToString t)] else u
    | .dec d => if d.coeff ≠ 0 then u ++ [(f.tag, decimalToString d)] else u

/-- Source `parametersToValues` (api_helpers.go) on a struct's field list.  The
`nil`/non-struct error paths are unreachable from the embedded call sites
(every caller passes a parameters struct), so the encoder is total here. -/
def parametersToValues (fields : List Field) : List (String × String) :=
  fields.foldl encodeField []

/-- Modelled from the spec's zero/empty table (§4.5): the zero value per
field kind — empty string, zero integer, empty sequence, the zero timestamp,
a numerically zero decimal.  Used only to state claims, never by the
encoder itself. -/
def FieldValue.specZero : FieldValue → Bool
  | .str s => s = ""
  | .int i => i = 0
  | .strSlice l => l.length = 0
  | .time t => t = {}
  | .dec d => d.coeff = 0

/-! ## Non-200 error path of `Client.Request` (client.go)

For a non-200 status, `Request` tries `json.Unmarshal(data, &e)` into
`struct{ Message string }`; on unmarshal failure it synthesizes
`"(%d) %s"` from the status code and raw body; it appends a hint when the
key or secret is empty; and it wraps the result as
`formatError("api response", ...)`.  The unmarshal attempt (Go standard
library) is modelled by its outcome: `parsed = some m` when the body is
valid JSON yielding message `m` (missing `message` key gives `some ""`,
as Go leaves the field at its zero value), `none` when unmarshalling
fails. -/

/-- Source `formatError` (client.go). -/
def formatError (location : String) (msg : String) : String :=
  location ++ ": " ++ msg

/-- The message synthesized when the error body does not unmarshal:
`fmt.Sprintf("(%d) %s", res.StatusCode, data)`. -/
def syntheticMessage (statusCode : Int) (body : String) : String :=
  "(" ++ toString statusCode ++ ") " ++ body

/-- The non-200 branch of `Client.Request`: the message of the error
returned for status `statusCode` and raw body `body`, where `parsed` is the
outcome of the `json.Unmarshal` attempt and `key`/`secret` are the client's
resolved credentials.  Returns `none` for status 200 (no API error). -/
def requestApiError (statusCode : Int) (body : String) (parsed : Option String)
    (key secret : String) : Option String :=
  if statusCode = 200 then none
  else
    let m := match parsed with
      | some msg => msg
      | none => syntheticMessage statusCode body
    let m := if key = "" ∨ secret = "" then m ++ " [API key or secret is missing]" else m
    some (formatError "api response" m)

/-! ## Pagination (list.go): `Next` and `NextPage`

The continuation state of a list object.  The fields `parent`, `parameters`,
`client`, `method` and `endpoint` are constant for the life of the list and
do not influence the state machine, so they are omitted; the query additions
`NextPage` makes on top of the (constant) encoded base parameters are
recorded per request as a `PageQuery`.  A simulated server is a function
from request index to the pagination fields of its response
(`has_next`, `cursor`, `num_products`). -/

/-- The mutable pagination fields of a list object (list.go `Pagination`):
`noNext`, `end` (here `end_`), `cursor`, `limit`, `offset`. -/
structure Pagination where
  noNext : Bool := false
  end_ : Bool := false
  cursor : String := ""
  limit : Int := 0
  offset : Int := 0
deriving DecidableEq

/-- Source `Pagination.Next`: returns the negation of the end flag. -/
def Next (p : Pagination) : Bool :=
  !p.end_

/-- The pagination fields a response carries (the anonymous `pg` struct in
`NextPage`): `has_next`, `cursor`, `num_products`. -/
structure PageResponse where
  hasNext : Bool := false
  cursor : String := ""
  numProducts : Int := 0
deriving DecidableEq

/-- What `NextPage` adds to the encoded base parameters of one issued
request: at most one of the `cursor` and `offset` query keys. -/
structure PageQuery where
  cursor : Option String := none
  offset : Option Int := none
deriving DecidableEq

/-- The observable outcome of one `NextPage` call. -/
inductive PageOutcome where
  /-- Flag `noNext` was set: return `nil` immediately, no request issued. -/
  | noRequest
  /-- A request was issued with the given query additions and the response
  was processed without error. -/
  | requested (q : PageQuery)
  /-- A request was issued, but processing returned the
  `"no limit specified for offset pagination"` error. -/
  | requestedErr (q : PageQuery)
deriving DecidableEq

/-- The query keys one `NextPage` call adds on top of the encoded base
parameters (the two `query.Add` calls in list.go): the stored cursor when
non-empty, else the offset when positive, else nothing. -/
def queryAdditions (p : Pagination) : PageQuery :=
  if p.cursor ≠ "" then { cursor := some p.cursor }
  else if 0 < p.offset then { offset := some p.offset }
  else {}

/-- Source `Pagination.NextPage` (list.go), as a transition on the pagination state:
given the response the server would return to the request (consulted only
when a request is actually issued), produce the new state and the call's
outcome. -/
def NextPage (p : Pagination) (resp : PageResponse) : Pagination × PageOutcome :=
  if p.noNext then ({ p with end_ := true }, .noRequest)
  else
    let q := queryAdditions p
    let p1 := { p with noNext := !resp.hasNext, cursor := resp.cursor }
    if p1.cursor = "" then
      if p1.limit = 0 then (p1, .requestedErr q)
      else
        let off := p1.offset + p1.limit
        ({ p1 with offset := off, noNext := decide (resp.numProducts ≤ off) }, .requested q)
    else (p1, .requested q)

/-- A pagination trace: current state, the queries of the requests issued so
far (in order), and how many calls returned the missing-limit error. -/
structure PagRun where
  p : Pagination
  reqs : List PageQuery := []
  errs : Nat := 0
deriving DecidableEq

/-- Perform one `NextPage` call against `server` (the response to the `k`-th
issued request is `server k`), recording any issued request. -/
def stepCall (server : Nat → PageResponse) (s : PagRun) : PagRun :=
  match NextPage s.p (server s.reqs.length) with
  | (p', .noRequest) => { s with p := p' }
  | (p', .requested q) => { p := p', reqs := s.reqs ++ [q], errs := s.errs }
  | (p', .requestedErr q) => { p := p', reqs := s.reqs ++ [q], errs := s.errs + 1 }

/-- Perform `k` successive `NextPage` calls against `server`, starting from
trace state `s`. -/
def runCalls (server : Nat → PageResponse) (s : PagRun) : Nat → PagRun
  | 0 => s
  | k + 1 => stepCall server (runCalls server s k)

/-- The simulated cursor-mode server of the termination claim: the first `n`
requests are answered `has_next=true`, every later one `has_next=false`;
every response carries an opaque cursor token (here `"c"`), which is what
keeps a list in cursor mode. -/
def cursorServer (n : Nat) : Nat → PageResponse :=
  fun k => if k < n then { hasNext := true, cursor := "c" } else { hasNext := false, cursor := "c" }

/-- The fresh pagination state every cursor-mode list operation constructs
(`ListOrders`/`ListFills`/`ListAccounts` set no `limit`). -/
def initialRun : PagRun :=
  { p := {} }

/-- The fresh trace for an offset-mode list with page-size `limit`
(`ListProducts` sets `limit`). -/
def initialRunWithLimit (limit : Int) : PagRun :=
  { p := { limit := limit } }

/-- The simulated offset-mode server of the exhaustion claim: every response
has an empty cursor and reports `num_products = total`. -/
def offsetServer (total : Int) : Nat → PageResponse :=
  fun _ => { numProducts := total }

/-! ## `Client.CancelOrders` (orders.go)

The batch-cancel response is a list of per-order results
`{success, failure_reason, order_id}`.  The Go map `cancelErrors` is
modelled as an insertion-ordered association list with map-assignment
semantics (writing an existing key replaces its value) observed through
lookup. -/

/-- One entry of the batch-cancel response's `results` array. -/
structure CancelResult where
  success : Bool
  error : String
  id : String
deriving DecidableEq

/-- Go map assignment `m[k] = v`: replace the value at `k` when present,
otherwise add the binding. -/
def mapAssign : List (String × String) → String → String → List (String × String)
  | [], k, v => [(k, v)]
  | (k', v') :: rest, k, v =>
      if k' = k then (k, v) :: rest else (k', v') :: mapAssign rest k v

/-- Go map read `m[k]`. -/
def mapLookup : List (String × String) → String → Option String
  | [], _ => none
  | (k', v') :: rest, k => if k' = k then some v' else mapLookup rest k

/-- The loop of `CancelOrders` building `cancelErrors`: skip successful
results, record `failure_reason` under `order_id` for the rest. -/
def cancelErrorsOf (results : List CancelResult) : List (String × String) :=
  results.foldl (fun m r => if r.success then m else mapAssign m r.id r.error) []

/-- Source `CancelOrders` returns a non-nil error exactly when
`len(cancelErrors) > 0`. -/
def cancelOrdersErrFlag (results : List CancelResult) : Bool :=
  decide (0 < (cancelErrorsOf results).length)

/-! ## `Client.CreateOrder`, `Client.ListOrders`, `Client.ListProducts`

The defaulting logic at the top of each operation (orders.go, products.go),
and the concrete field lists of the two tagged parameter structs, as the
reflection loop of `parametersToValues` walks them. -/

/-- The client-order-id actually placed in the `CreateOrder` request wrapper
(orders.go): an empty id is replaced by
`fmt.Sprintf("%d", time.Now().UnixMilli())`, where `nowMilli` is the current
Unix time in milliseconds. -/
def createOrderClientOrderID (clientOrderId : String) (nowMilli : Int) : String :=
  if clientOrderId = "" then toString nowMilli else clientOrderId

/-- Source `ListOrdersParameters` (orders.go): the nine `cbt`-tagged fields. -/
structure ListOrdersParameters where
  Product : String := ""
  Type_ : String := ""
  Side : String := ""
  Status : List String := []
  StartDate : GoTime := {}
  EndDate : GoTime := {}
  UserNativeCurrency : String := ""
  ProductType : String := ""
  Limit : Int := 0
deriving DecidableEq

/-- The field list of `ListOrdersParameters` in declaration order, with each
field's `cbt` tag. -/
def ListOrdersParameters.fields (p : ListOrdersParameters) : List Field :=
  [⟨"product_id", .str p.Product⟩,
   ⟨"order_type", .str p.Type_⟩,
   ⟨"order_side", .str p.Side⟩,
   ⟨"order_status", .strSlice p.Status⟩,
   ⟨"start_date", .time p.StartDate⟩,
   ⟨"end_date", .time p.EndDate⟩,
   ⟨"user_native_currency", .str p.UserNativeCurrency⟩,
   ⟨"product_type", .str p.ProductType⟩,
   ⟨"limit", .int p.Limit⟩]

/-- The defaulting at the top of `ListOrders`: a non-positive `Limit` becomes
50 before the parameters are handed to the pagination object. -/
def listOrdersEffectiveParams (p : ListOrdersParameters) : ListOrdersParameters :=
  if p.Limit ≤ 0 then { p with Limit := 50 } else p

/-- Source `ListProductsParameters` (products.go): the two `cbt`-tagged fields. -/
structure ListProductsParameters where
  Limit : Int := 0
  Type_ : String := ""
deriving DecidableEq

/-- The field list of `ListProductsParameters` in declaration order. -/
def ListProductsParameters.fields (p : ListProductsParameters) : List Field :=
  [⟨"limit", .int p.Limit⟩,
   ⟨"product_type", .str p.Type_⟩]

/-- The defaulting at the top of `ListProducts`: a non-positive `Limit`
becomes 100. -/
def listProductsEffectiveParams (p : ListProductsParameters) : ListProductsParameters :=
  if p.Limit ≤ 0 then { p with Limit := 100 } else p

/-- The pagination state `ListProducts` constructs: fresh, with `limit` set
to the (defaulted) page-size limit. -/
def listProductsPagination (p : ListProductsParameters) : Pagination :=
  { limit := (listProductsEffectiveParams p).Limit }

/-! ## `Client.sign` (client.go): HMAC-SHA256, hex-encoded

`sign` builds `message := fmt.Sprintf("%s%s%s%s", timestamp, method,
resource, data)` and feeds `[]byte(message)` to `hmac.New(sha256.New,
[]byte(c.Secret))`, hex-encoding the sum.  SHA-256 (FIPS 180-4) and HMAC
(RFC 2104) are implemented below over byte lists (`Nat` values `< 256`),
with 32-bit words as `Nat` reduced mod `2^32`. -/

/-- Addition of 32-bit words. -/
def add32 (a b : Nat) : Nat :=
  (a + b) % 4294967296

/-- Bitwise complement of a 32-bit word. -/
def not32 (a : Nat) : Nat :=
  4294967295 ^^^ a

/-- Right-rotation of a 32-bit word by `n` places. -/
def rotr32 (n x : Nat) : Nat :=
  ((x >>> n) ||| (x <<< (32 - n))) % 4294967296

/-- SHA-256 `Ch`. -/
def sha2Ch (x y z : Nat) : Nat :=
  (x &&& y) ^^^ (not32 x &&& z)

/-- SHA-256 `Maj`. -/
def sha2Maj (x y z : Nat) : Nat :=
  (x &&& y) ^^^ (x &&& z) ^^^ (y &&& z)

/-- SHA-256 `Σ₀`. -/
def bigSigma0 (x : Nat) : Nat :=
  rotr32 2 x ^^^ rotr32 13 x ^^^ rotr32 22 x

/-- SHA-256 `Σ₁`. -/
def bigSigma1 (x : Nat) : Nat :=
  rotr32 6 x ^^^ rotr32 11 x ^^^ rotr32 25 x

/-- SHA-256 `σ₀`. -/
def smallSigma0 (x : Nat) : Nat :=
  rotr32 7 x ^^^ rotr32 18 x ^^^ (x >>> 3)

/-- SHA-256 `σ₁`. -/
def smallSigma1 (x : Nat) : Nat :=
  rotr32 17 x ^^^ rotr32 19 x ^^^ (x >>> 10)

/-- The SHA-256 round constants (FIPS 180-4), written in decimal. -/
def sha2K : List Nat :=
  [1116352408, 1899447441, 3049323471, 3921009573, 961987163,
   1508970993, 2453635748, 2870763221, 3624381080, 310598401,
   607225278, 1426881987, 1925078388, 2162078206, 2614888103,
   3248222580, 3835390401, 4022224774, 264347078, 604807628,
   770255983, 1249150122, 1555081692, 1996064986, 2554220882,
   2821834349, 2952996808, 3210313671, 3336571891, 3584528711,
   113926993, 338241895, 666307205, 773529912, 1294757372,
   1396182291, 1695183700, 1986661051, 2177026350, 2456956037,
   2730485921, 2820302411, 3259730800, 3345764771, 3516065817,
   3600352804, 4094571909, 275423344, 430227734, 506948616,
   659060556, 883997877, 958139571, 1322822218, 1537002063,
   1747873779, 1955562222, 2024104815, 2227730452, 2361852424,
   2428436474, 2756734187, 3204031479, 3329325298]

/-- The SHA-256 working state, registers `a` through `h`. -/
structure Hash8 where
  a : Nat
  b : Nat
  c : Nat
  d : Nat
  e : Nat
  f : Nat
  g : Nat
  h : Nat
deriving DecidableEq

/-- The SHA-256 initial hash value. -/
def sha2H0 : Hash8 :=
  ⟨1779033703, 3144134277, 1013904242, 2773480762, 1359893119, 2600822924, 528734635, 1541459225⟩

/-- A 64-bit big-endian length field, as 8 bytes. -/
def encodeBE64 (n : Nat) : List Nat :=
  [(n >>> 56) % 256, (n >>> 48) % 256, (n >>> 40) % 256, (n >>> 32) % 256,
   (n >>> 24) % 256, (n >>> 16) % 256, (n >>> 8) % 256, n % 256]

/-- SHA-256 padding: append `0x80`, zeros to 56 mod 64, then the bit length
big-endian. -/
def padMessage (msg : List Nat) : List Nat :=
  msg ++ 0x80 :: List.replicate ((64 + 55 - msg.length % 64) % 64) 0 ++ encodeBE64 (8 * msg.length)

/-- Split a byte list into 64-byte blocks, with structural fuel (one unit per
block; `fuel = l.length` is always ample since a step consumes 64 bytes). -/
def toBlocksAux (fuel : Nat) (l : List Nat) : List (List Nat) :=
  match fuel with
  | 0 => []
  | f + 1 => if l.length = 0 then [] else l.take 64 :: toBlocksAux f (l.drop 64)

/-- Split a byte list into 64-byte blocks. -/
def toBlocks (l : List Nat) : List (List Nat) :=
  toBlocksAux l.length l

/-- Big-endian 32-bit words from bytes. -/
def toWords : List Nat → List Nat
  | a :: b :: c :: d :: rest => (((a * 256 + b) * 256 + c) * 256 + d) :: toWords rest
  | _ => []

/-- Extend a message schedule by `k` further words
(`w[t] = σ₁(w[t-2]) + w[t-7] + σ₀(w[t-15]) + w[t-16]`). -/
def extendSchedule (ws : List Nat) : Nat → List Nat
  | 0 => ws
  | k + 1 =>
      let prev := extendSchedule ws k
      let n := prev.length
      prev ++ [add32 (add32 (smallSigma1 (prev.getD (n - 2) 0)) (prev.getD (n - 7) 0))
                     (add32 (smallSigma0 (prev.getD (n - 15) 0)) (prev.getD (n - 16) 0))]

/-- One SHA-256 round, consuming one `(K, W)` pair. -/
def sha2Round (s : Hash8) (kw : Nat × Nat) : Hash8 :=
  let t1 := add32 (add32 (add32 s.h (bigSigma1 s.e)) (add32 (sha2Ch s.e s.f s.g) kw.1)) kw.2
  let t2 := add32 (bigSigma0 s.a) (sha2Maj s.a s.b s.c)
  ⟨add32 t1 t2, s.a, s.b, s.c, add32 s.d t1, s.e, s.f, s.g⟩

/-- Compress one 64-byte block into the running hash value. -/
def compressBlock (hs : Hash8) (block : List Nat) : Hash8 :=
  let ws := extendSchedule (toWords block) 48
  let s := (sha2K.zip ws).foldl sha2Round hs
  ⟨add32 hs.a s.a, add32 hs.b s.b, add32 hs.c s.c, add32 hs.d s.d,
   add32 hs.e s.e, add32 hs.f s.f, add32 hs.g s.g, add32 hs.h s.h⟩

/-- The digest bytes of a hash value, big-endian per word. -/
def hashToBytes (hs : Hash8) : List Nat :=
  [hs.a, hs.b, hs.c, hs.d, hs.e, hs.f, hs.g, hs.h].foldr
    (fun w acc => [(w >>> 24) % 256, (w >>> 16) % 256, (w >>> 8) % 256, w % 256] ++ acc) []

/-- SHA-256 of a byte list. -/
def sha256Bytes (msg : List Nat) : List Nat :=
  hashToBytes ((toBlocks (padMessage msg)).foldl compressBlock sha2H0)

/-- HMAC-SHA256 (RFC 2104): block size 64; a longer key is first hashed. -/
def hmacSha256 (key msg : List Nat) : List Nat :=
  let k0 := if 64 < key.length then sha256Bytes key else key
  let kPad := k0 ++ List.replicate (64 - k0.length) 0
  sha256Bytes (kPad.map (fun b => b ^^^ 0x5c) ++ sha256Bytes (kPad.map (fun b => b ^^^ 0x36) ++ msg))

/-- The UTF-8 bytes of one character, as Go's `[]byte(string)` produces. -/
def utf8Bytes (c : Char) : List Nat :=
  let n := c.toNat
  if n < 128 then [n]
  else if n < 2048 then [192 + n / 64, 128 + n % 64]
  else if n < 65536 then [224 + n / 4096, 128 + n / 64 % 64, 128 + n % 64]
  else [240 + n / 262144, 128 + n / 4096 % 64, 128 + n / 64 % 64, 128 + n % 64]

/-- The UTF-8 bytes of a string (Go's `[]byte(s)`). -/
def strBytes (s : String) : List Nat :=
  s.data.foldr (fun c acc => utf8Bytes c ++ acc) []

/-- One lowercase hex digit. -/
def hexDigit (n : Nat) : Char :=
  if n < 10 then Char.ofNat (48 + n) else Char.ofNat (87 + n)

/-- Go `hex.EncodeToString`: two lowercase hex digits per byte. -/
def hexEncode (bs : List Nat) : String :=
  String.mk (bs.foldr (fun b acc => hexDigit (b / 16 % 16) :: hexDigit (b % 16) :: acc) [])

/-- Source `Client.sign` (client.go): hex-encoded HMAC-SHA256, keyed by the secret's
bytes, over the bytes of `fmt.Sprintf("%s%s%s%s", timestamp, method,
resource, data)` — `%s` renders the body bytes `data` verbatim after the
three strings, with no separators.  The hash-writer error path is dead code
(writing to an HMAC state cannot fail), so `sign` is total. -/
def sign (secret timestamp method resource : String) (data : List Nat) : String :=
  hexEncode (hmacSha256 (strBytes secret) (strBytes (timestamp ++ method ++ resource) ++ data))

/-! ## Spec-side definitions and concrete scenarios used by the claims -/

/-- Modelled from the spec's words (§6, corrected to the code's order): the
per-field resolution the code actually performs — environment value when
non-empty, else explicit config value when non-empty, else the hardcoded
default. -/
def resolveEnvConfigDefault (envVal cfgVal dfltVal : String) : String :=
  if envVal ≠ "" then envVal else if cfgVal ≠ "" then cfgVal else dfltVal

/-- A server whose first response selects offset mode (no cursor token,
`num_products = 120`) but whose later responses carry a cursor token: used
to show the mode is re-decided on every response. -/
def mixedServer : Nat → PageResponse :=
  fun k => if k = 0 then { numProducts := 120 } else { hasNext := true, cursor := "abc" }

/-- The lowercase hex alphabet, for stating that signatures are lowercase
hex strings. -/
def lowercaseHexChars : List Char :=
  "0123456789abcdef".data

/-! # Theorems -/

/-! ## Shared lemmas -/

/-- The two-pass fill of one credential field equals env-then-config-then-
default resolution. -/
theorem resolve_step (e c d : String) :
    (if (if e = "" then c else e) = "" then d else (if e = "" then c else e)) =
      resolveEnvConfigDefault e c d := by
  by_cases he : e = "" <;> by_cases hc : c = "" <;>
    simp [resolveEnvConfigDefault, he, hc]

/-- The encoder's loop body only appends: its effect on an accumulator is the
pairs it would produce from an empty one. -/
theorem encodeField_append (u : List (String × String)) (f : Field) :
    encodeField u f = u ++ encodeField [] f := by
  rcases f with ⟨tag, val⟩
  cases val <;> simp only [encodeField] <;> split_ifs <;> simp

/-- A field that is untagged or holds its zero value contributes nothing. -/
theorem encodeField_of_zero (u : List (String × String)) (f : Field)
    (h : f.tag ≠ "" → f.val.specZero = true) : encodeField u f = u := by
  rcases f with ⟨tag, val⟩
  by_cases ht : tag = ""
  · simp [encodeField, ht]
  · have hz := h ht
    cases val <;> simp_all [encodeField, FieldValue.specZero]

/-- The encoder's fold distributes over the accumulator. -/
theorem foldl_encodeField_append (l : List Field) :
    ∀ u, l.foldl encodeField u = u ++ l.foldl encodeField [] := by
  induction l with
  | nil => intro u; simp
  | cons f l ih =>
      intro u
      simp only [List.foldl_cons]
      rw [ih (encodeField u f), ih (encodeField [] f), encodeField_append u f,
        List.append_assoc]

/-- A struct whose tagged fields are all zero encodes to no pairs at all. -/
theorem parametersToValues_eq_nil (fields : List Field)
    (h : ∀ f ∈ fields, f.tag ≠ "" → f.val.specZero = true) :
    parametersToValues fields = [] := by
  induction fields with
  | nil => rfl
  | cons f l ih =>
      simp only [parametersToValues, List.foldl_cons]
      rw [encodeField_of_zero [] f (h f (List.mem_cons_self f l))]
      exact ih fun g hg => h g (List.mem_cons_of_mem f hg)

/-- Every pair a single field contributes carries that field's tag as key. -/
theorem encodeField_keys (f : Field) :
    (encodeField [] f).map Prod.fst =
      List.replicate (encodeField [] f).length f.tag := by
  rcases f with ⟨tag, val⟩
  cases val <;> simp only [encodeField] <;> split_ifs <;>
    simp [List.map_map, Function.comp]

/-- A tagged field contributes no pair exactly when it holds its zero value:
strings contribute iff non-empty, integers iff non-zero, string slices iff
non-empty, timestamps iff not the zero time, decimals iff not numerically
zero. -/
theorem encodeField_nil_iff (f : Field) (h : f.tag ≠ "") :
    encodeField [] f = [] ↔ f.val.specZero = true := by
  rcases f with ⟨tag, val⟩
  cases val <;> simp_all [encodeField, FieldValue.specZero]
  exact (Nat.eq_zero_or_pos _).elim
    (fun h0 => Or.inr (List.length_eq_zero.mp h0)) Or.inl

/-! ## C1 — credential resolution in `NewClient` -/

/-- C1 (amended): for every `NewClient` call, each credential field resolves
to the environment variable when it is non-empty, otherwise to the explicit
config value when that is non-empty, otherwise to the hardcoded default
(host `https://coinbase.com`, base path `/api/v3/brokerage`, empty key and
secret) — the environment takes precedence over the explicit config, not the
other way around.  The resolution is performed once, inside `NewClient`. -/
theorem NewClient_resolves_env_config_default (config : Option ClientConfig)
    (env : ClientConfig) :
    NewClient config env =
      { Host := resolveEnvConfigDefault env.Host (config.getD {}).Host "https://coinbase.com",
        Path := resolveEnvConfigDefault env.Path (config.getD {}).Path "/api/v3/brokerage",
        Key := resolveEnvConfigDefault env.Key (config.getD {}).Key "",
        Secret := resolveEnvConfigDefault env.Secret (config.getD {}).Secret "" } := by
  cases config <;>
    · simp only [NewClient, Option.getD, fillIfEmpty, defaultClient, ClientConfig.mk.injEq]
      exact ⟨resolve_step _ _ _, resolve_step _ _ _, resolve_step _ _ _, resolve_step _ _ _⟩

/-- C1 counterexample: with a non-empty explicit config field and a
non-empty environment value for the same field, `NewClient` keeps the
environment value, not the explicit config value the claim requires. -/
theorem NewClient_env_beats_config :
    (NewClient
        (some { Host := "https://config.example", Path := "/cfgpath",
                Key := "cfgkey", Secret := "cfgsecret" })
        { Host := "https://env.example", Path := "/envpath",
          Key := "envkey", Secret := "envsecret" }).Host = "https://env.example" ∧
      "https://env.example" ≠ "https://config.example" := by
  exact ⟨rfl, by decide⟩

/-! ## C4 — zero-omission of the parameter encoder -/

/-- C4: a parameters struct whose tagged fields all hold their zero value
encodes to the empty query; a struct with exactly one non-zero tagged field
encodes to a non-empty query whose keys all equal that field's tag (exactly
one key); and a tagged field is included exactly when it is non-zero, per
the five kind-specific rules. -/
theorem parametersToValues_zero_omission (fields : List Field) :
    ((∀ f ∈ fields, f.tag ≠ "" → f.val.specZero = true) →
        parametersToValues fields = []) ∧
    (∀ (pre : List Field) (f : Field) (post : List Field),
        fields = pre ++ f :: post → f.tag ≠ "" → f.val.specZero = false →
        (∀ g ∈ pre, g.tag ≠ "" → g.val.specZero = true) →
        (∀ g ∈ post, g.tag ≠ "" → g.val.specZero = true) →
        parametersToValues fields ≠ [] ∧
          (parametersToValues fields).map Prod.fst =
            List.replicate (parametersToValues fields).length f.tag) ∧
    (∀ f : Field, f.tag ≠ "" → (encodeField [] f = [] ↔ f.val.specZero = true)) := by
  refine ⟨parametersToValues_eq_nil fields, ?_, fun f hf => encodeField_nil_iff f hf⟩
  intro pre f post hEq hTag hNz hPre hPost
  have hfields : parametersToValues fields = encodeField [] f := by
    subst hEq
    simp only [parametersToValues, List.foldl_append, List.foldl_cons]
    rw [show List.foldl encodeField [] pre = [] from parametersToValues_eq_nil pre hPre,
      foldl_encodeField_append post (encodeField [] f),
      show List.foldl encodeField [] post = [] from parametersToValues_eq_nil post hPost,
      List.append_nil]
  constructor
  · rw [hfields]
    intro hnil
    have hz := (encodeField_nil_iff f hTag).mp hnil
    rw [hNz] at hz
    exact absurd hz (by decide)
  · rw [hfields]
    exact encodeField_keys f

/-- C4 witness: an all-zero six-field struct encodes to nothing; a struct
whose only non-zero tagged field is an integer `limit` yields only `limit`
keys; a non-empty tagged string field is included. -/
theorem parametersToValues_zero_omission_witness :
    parametersToValues
        [⟨"", .str "untagged"⟩, ⟨"a", .str ""⟩, ⟨"b", .int 0⟩, ⟨"c", .strSlice []⟩,
          ⟨"d", .time {}⟩, ⟨"e", .dec {}⟩] = [] ∧
      (parametersToValues [⟨"a", .str ""⟩, ⟨"limit", .int 7⟩, ⟨"d", .time {}⟩] ≠ [] ∧
        (parametersToValues [⟨"a", .str ""⟩, ⟨"limit", .int 7⟩, ⟨"d", .time {}⟩]).map Prod.fst =
          List.replicate
            (parametersToValues [⟨"a", .str ""⟩, ⟨"limit", .int 7⟩, ⟨"d", .time {}⟩]).length
            "limit") ∧
      (encodeField [] ⟨"x", .str "hi"⟩ = [] ↔ FieldValue.specZero (.str "hi") = true) :=
  ⟨(parametersToValues_zero_omission _).1 (by decide),
    (parametersToValues_zero_omission _).2.1 [⟨"a", .str ""⟩] ⟨"limit", .int 7⟩
      [⟨"d", .time {}⟩] rfl (by decide) (by decide) (by decide) (by decide),
    (parametersToValues_zero_omission [⟨"x", .str "hi"⟩]).2.2 ⟨"x", .str "hi"⟩ (by decide)⟩

/-! ## C9 — `CreateOrder` client-order-id defaulting -/

/-- C9: a `CreateOrder` call with an empty client order id sends the current
Unix time in milliseconds, rendered as a decimal string, as the client order
id; a non-empty id is passed through unchanged. -/
theorem createOrder_clientOrderId_default (cid : String) (nowMilli : Int) :
    (cid = "" → createOrderClientOrderID cid nowMilli = toString nowMilli) ∧
    (cid ≠ "" → createOrderClientOrderID cid nowMilli = cid) := by
  constructor <;> intro h <;> simp [createOrderClientOrderID, h]

/-- C9 witness at a concrete timestamp and a concrete non-empty id. -/
theorem createOrder_clientOrderId_default_witness :
    createOrderClientOrderID "" 1700000000123 = toString (1700000000123 : Int) ∧
      createOrderClientOrderID "my-id" 1700000000123 = "my-id" :=
  ⟨(createOrder_clientOrderId_default "" 1700000000123).1 rfl,
    (createOrder_clientOrderId_default "my-id" 1700000000123).2 (by decide)⟩

/-! ## C10 — default limits of `ListOrders` and `ListProducts` -/

/-- C10: a `ListOrders` call with non-positive `Limit` issues its requests
with `limit=50`; a `ListProducts` call with non-positive `Limit` issues its
requests with `limit=100`; and the pagination page-size limit `ListProducts`
installs is the defaulted value, which is always positive. -/
theorem list_default_limits (po : ListOrdersParameters) (pp : ListProductsParameters) :
    (po.Limit ≤ 0 →
        ("limit", "50") ∈ parametersToValues (listOrdersEffectiveParams po).fields) ∧
    (pp.Limit ≤ 0 →
        ("limit", "100") ∈ parametersToValues (listProductsEffectiveParams pp).fields) ∧
    (listProductsPagination pp).limit = (listProductsEffectiveParams pp).Limit ∧
    0 < (listProductsPagination pp).limit := by
  refine ⟨?_, ?_, rfl, ?_⟩
  · intro h
    unfold listOrdersEffectiveParams
    rw [if_pos h]
    simp only [ListOrdersParameters.fields, parametersToValues, List.foldl_cons,
      List.foldl_nil]
    rw [encodeField_append]
    exact List.mem_append_right _ (by decide)
  · intro h
    unfold listProductsEffectiveParams
    rw [if_pos h]
    simp only [ListProductsParameters.fields, parametersToValues, List.foldl_cons,
      List.foldl_nil]
    rw [encodeField_append]
    exact List.mem_append_left _ (by decide)
  · unfold listProductsPagination listProductsEffectiveParams
    by_cases h : pp.Limit ≤ 0
    · rw [if_pos h]
      show (0 : Int) < 100
      decide
    · rw [if_neg h]
      show (0 : Int) < pp.Limit
      omega

/-- C10 witness: the zero-valued parameter structs get limits 50 and 100. -/
theorem list_default_limits_witness :
    ("limit", "50") ∈ parametersToValues (listOrdersEffectiveParams {}).fields ∧
      ("limit", "100") ∈ parametersToValues (listProductsEffectiveParams {}).fields :=
  ⟨(list_default_limits {} {}).1 (by decide), (list_default_limits {} {}).2.1 (by decide)⟩

/-! ## C5 — error surfacing on non-200 responses -/

/-- C5 (amended): for every non-200 response the returned API error's
message is the fixed location prefix `api response: ` followed by the parsed
`message` string when the body parses (plus a hint when the key or secret is
empty), and by `(statusCode) body` — containing the status code and the raw
body text — when it does not. -/
theorem requestApiError_message (statusCode : Int) (body : String)
    (parsed : Option String) (key secret : String) (h : statusCode ≠ 200) :
    requestApiError statusCode body parsed key secret =
      some (formatError "api response"
        (parsed.getD (syntheticMessage statusCode body) ++
          (if key = "" ∨ secret = "" then " [API key or secret is missing]" else ""))) := by
  unfold requestApiError
  rw [if_neg h]
  cases parsed <;> split_ifs <;> simp [Option.getD]

/-- C5 witness: a 400 with unparseable body `garbage` and non-empty
credentials yields a message carrying the status code and the raw body. -/
theorem requestApiError_message_witness :
    requestApiError 400 "garbage" none "k" "s" = some "api response: (400) garbage" :=
  (requestApiError_message 400 "garbage" none "k" "s" (by decide)).trans (by decide)

/-- C5 counterexample: a 400 response whose body is
`\x7b"message":"bad request"\x7d` (which parses to the message
`bad request`) yields the error message `api response: bad request` — not
exactly `bad request` as the claim requires. -/
theorem requestApiError_not_exact :
    requestApiError 400 "\x7b\"message\":\"bad request\"\x7d" (some "bad request") "k" "s" =
        some "api response: bad request" ∧
      requestApiError 400 "\x7b\"message\":\"bad request\"\x7d" (some "bad request") "k" "s" ≠
        some "bad request" := by
  constructor <;> decide

/-! ## C8 — `CancelOrders` partial-failure reporting -/

/-- Writing a key into the map makes lookup of that key return the written
value. -/
theorem mapLookup_mapAssign_self (m : List (String × String)) (k v : String) :
    mapLookup (mapAssign m k v) k = some v := by
  induction m with
  | nil => simp [mapAssign, mapLookup]
  | cons p m ih =>
      rcases p with ⟨k1, v1⟩
      by_cases h : k1 = k <;> simp [mapAssign, mapLookup, h, ih]

/-- Writing a key into the map leaves lookups of other keys unchanged. -/
theorem mapLookup_mapAssign_ne (m : List (String × String)) (k v k2 : String)
    (h : k2 ≠ k) : mapLookup (mapAssign m k v) k2 = mapLookup m k2 := by
  induction m with
  | nil => simp [mapAssign, mapLookup, Ne.symm h]
  | cons p m ih =>
      rcases p with ⟨k1, v1⟩
      by_cases h1 : k1 = k <;> simp [mapAssign, mapLookup, h1, Ne.symm h, ih]

/-- Every binding of the map after an assignment is the new binding or an
old one. -/
theorem mem_mapAssign (m : List (String × String)) (k v : String)
    (p : String × String) (h : p ∈ mapAssign m k v) : p = (k, v) ∨ p ∈ m := by
  induction m with
  | nil => simpa [mapAssign] using h
  | cons q m ih =>
      rcases q with ⟨k1, v1⟩
      rw [mapAssign] at h
      split_ifs at h with h1
      · rcases List.mem_cons.mp h with h | h
        · exact Or.inl h
        · exact Or.inr (List.mem_cons_of_mem _ h)
      · rcases List.mem_cons.mp h with h | h
        · subst h
          exact Or.inr (List.mem_cons_self _ _)
        · rcases ih h with h2 | h2
          · exact Or.inl h2
          · exact Or.inr (List.mem_cons_of_mem _ h2)

/-- An assignment never empties the map. -/
theorem mapAssign_ne_nil (m : List (String × String)) (k v : String) :
    mapAssign m k v ≠ [] := by
  cases m with
  | nil => simp [mapAssign]
  | cons p m =>
      rcases p with ⟨k1, v1⟩
      rw [mapAssign]
      split_ifs <;> simp

/-- Lookup hitting a value means the binding is in the map. -/
theorem mapLookup_mem (m : List (String × String)) (k e : String)
    (h : mapLookup m k = some e) : (k, e) ∈ m := by
  induction m with
  | nil => simp [mapLookup] at h
  | cons p m ih =>
      rcases p with ⟨k1, v1⟩
      rw [mapLookup] at h
      split_ifs at h with h1
      · subst h1
        rw [Option.some.injEq] at h
        subst h
        exact List.mem_cons_self _ _
      · exact List.mem_cons_of_mem _ (ih h)

/-- Running the `CancelOrders` loop over `rs` from accumulator `m`: an id is
found afterwards exactly when it was found before or some failed result in
`rs` bears it. -/
theorem cancelFold_lookup (rs : List CancelResult) :
    ∀ (m : List (String × String)) (id : String),
      (mapLookup (rs.foldl (fun m r => if r.success then m else mapAssign m r.id r.error) m) id).isSome = true ↔
        (mapLookup m id).isSome = true ∨ ∃ r ∈ rs, r.id = id ∧ r.success = false := by
  induction rs with
  | nil => simp
  | cons r rs ih =>
      intro m id
      simp only [List.foldl_cons]
      by_cases hs : r.success = true
      · rw [if_pos hs, ih]
        simp [hs]
      · have hs2 : r.success = false := by simpa using hs
        rw [if_neg hs, ih]
        by_cases hid : id = r.id
        · subst hid
          have hself := mapLookup_mapAssign_self m r.id r.error
          constructor
          · intro _
            exact Or.inr ⟨r, List.mem_cons_self _ _, rfl, hs2⟩
          · intro _
            exact Or.inl (by rw [hself]; rfl)
        · rw [mapLookup_mapAssign_ne m r.id r.error id hid]
          constructor
          · rintro (h | ⟨r2, hr2, h1, h2⟩)
            · exact Or.inl h
            · exact Or.inr ⟨r2, List.mem_cons_of_mem _ hr2, h1, h2⟩
          · rintro (h | ⟨r2, hr2, h1, h2⟩)
            · exact Or.inl h
            · rcases List.mem_cons.mp hr2 with rfl | hr3
              · exact absurd h1.symm hid
              · exact Or.inr ⟨r2, hr3, h1, h2⟩

/-- Every binding the `CancelOrders` loop produces comes from a failed
result (or was already in the accumulator). -/
theorem cancelFold_mem (rs : List CancelResult) :
    ∀ (m : List (String × String)) (p : String × String),
      p ∈ rs.foldl (fun m r => if r.success then m else mapAssign m r.id r.error) m →
        p ∈ m ∨ ∃ r ∈ rs, r.success = false ∧ r.id = p.1 ∧ r.error = p.2 := by
  induction rs with
  | nil => intro m p h; exact Or.inl h
  | cons r rs ih =>
      intro m p h
      simp only [List.foldl_cons] at h
      by_cases hs : r.success = true
      · rw [if_pos hs] at h
        rcases ih m p h with h1 | ⟨r2, hr2, h1⟩
        · exact Or.inl h1
        · exact Or.inr ⟨r2, List.mem_cons_of_mem _ hr2, h1⟩
      · rw [if_neg hs] at h
        rcases ih _ p h with h1 | ⟨r2, hr2, h1⟩
        · rcases mem_mapAssign m r.id r.error p h1 with h2 | h2
          · subst h2
            exact Or.inr ⟨r, List.mem_cons_self _ _, by simpa using hs, rfl, rfl⟩
          · exact Or.inl h2
        · exact Or.inr ⟨r2, List.mem_cons_of_mem _ hr2, h1⟩

/-- The `CancelOrders` loop produces no binding exactly when the accumulator
was empty and every result succeeded. -/
theorem cancelFold_nil_iff (rs : List CancelResult) :
    ∀ m : List (String × String),
      rs.foldl (fun m r => if r.success then m else mapAssign m r.id r.error) m = [] ↔
        m = [] ∧ ∀ r ∈ rs, r.success = true := by
  induction rs with
  | nil => simp
  | cons r rs ih =>
      intro m
      simp only [List.foldl_cons]
      by_cases hs : r.success = true
      · rw [if_pos hs, ih]
        simp [hs]
      · rw [if_neg hs, ih]
        simp [mapAssign_ne_nil, hs]

/-- C8: the map `CancelOrders` returns contains exactly the order ids whose
per-order result reports failure; every binding carries the failure reason
of a failed result with that id; and the call returns a non-nil error
exactly when at least one order was not cancelled successfully. -/
theorem cancelOrders_failure_map (rs : List CancelResult) :
    (∀ id : String, (mapLookup (cancelErrorsOf rs) id).isSome = true ↔
        ∃ r ∈ rs, r.id = id ∧ r.success = false) ∧
    (∀ id e : String, mapLookup (cancelErrorsOf rs) id = some e →
        ∃ r ∈ rs, r.id = id ∧ r.success = false ∧ r.error = e) ∧
    (cancelOrdersErrFlag rs = true ↔ ∃ r ∈ rs, r.success = false) := by
  have hnil : cancelErrorsOf rs = [] ↔ ∀ r ∈ rs, r.success = true := by
    unfold cancelErrorsOf
    rw [cancelFold_nil_iff rs []]
    simp
  refine ⟨fun id => ?_, fun id e h => ?_, ?_⟩
  · unfold cancelErrorsOf
    rw [cancelFold_lookup rs [] id]
    simp [mapLookup]
  · have hmem := mapLookup_mem _ _ _ h
    unfold cancelErrorsOf at hmem
    rcases cancelFold_mem rs [] (id, e) hmem with h1 | ⟨r2, hr2, h1, h2, h3⟩
    · simp at h1
    · exact ⟨r2, hr2, h2, h1, h3⟩
  · unfold cancelOrdersErrFlag
    rw [decide_eq_true_eq, List.length_pos, Ne, hnil]
    constructor
    · intro hne
      push_neg at hne
      rcases hne with ⟨r, hr, hs⟩
      exact ⟨r, hr, by simpa using hs⟩
    · rintro ⟨r, hr, hs⟩ hall
      rw [hall r hr] at hs
      exact absurd hs (by decide)

/-! ## Pagination step lemmas -/

/-- A `NextPage` call that finds `noNext` set only raises the end flag and
issues no request. -/
theorem stepCall_stalled (server : Nat → PageResponse) (s : PagRun)
    (hn : s.p.noNext = true) :
    stepCall server s = { s with p := { s.p with end_ := true } } := by
  unfold stepCall NextPage
  rw [if_pos hn]

/-- A `NextPage` call with `noNext` clear whose response carries a cursor
token: the state stores the response's `has_next` (negated) and cursor, one
request is issued (carrying the stored cursor when non-empty, else the
offset when positive), and the offset branch is not taken. -/
theorem stepCall_advance (server : Nat → PageResponse) (s : PagRun)
    (hn : s.p.noNext = false) (hr : (server s.reqs.length).cursor ≠ "") :
    stepCall server s =
      { p := { s.p with
          noNext := !((server s.reqs.length).hasNext),
          cursor := (server s.reqs.length).cursor },
        reqs := s.reqs ++ [queryAdditions s.p],
        errs := s.errs } := by
  unfold stepCall NextPage
  rw [if_neg (by rw [hn]; exact Bool.false_ne_true)]
  dsimp only
  rw [if_neg hr]

/-! ## C2 — cursor-mode pagination termination -/

/-- While the simulated cursor server still answers `has_next=true`, the
list state stays live: after `k ≤ N` calls, `noNext` and `end` are clear,
`k` requests were issued, and no error occurred. -/
theorem runCursor_le (N : Nat) :
    ∀ k, k ≤ N → ∃ rq : List PageQuery,
      runCalls (cursorServer N) initialRun k =
          { p := { cursor := if k = 0 then "" else "c" }, reqs := rq, errs := 0 } ∧
        rq.length = k := by
  intro k
  induction k with
  | zero => exact fun _ => ⟨[], rfl, rfl⟩
  | succ k ih =>
      intro hk1
      have hkN : k < N := Nat.lt_of_lt_of_le (Nat.lt_succ_self k) hk1
      obtain ⟨rq, hEq, hLen⟩ := ih (Nat.le_of_lt hkN)
      have hr : (cursorServer N
          (({ p := { cursor := if k = 0 then "" else "c" }, reqs := rq, errs := 0 } :
            PagRun).reqs.length)).cursor ≠ "" := by
        dsimp only
        rw [hLen]
        unfold cursorServer
        split_ifs <;> decide
      have hN0 : 0 < N := Nat.lt_of_le_of_lt (Nat.zero_le k) hkN
      refine ⟨rq ++ [if k = 0 then ({} : PageQuery) else { cursor := some "c" }], ?_,
        by simp [hLen]⟩
      simp only [runCalls]
      rw [hEq, stepCall_advance _ _ rfl hr]
      by_cases hk0 : k = 0 <;>
        simp [cursorServer, queryAdditions, hLen, hkN, hk0, hN0, PagRun.mk.injEq,
          Pagination.mk.injEq]

/-- The `(N+1)`-st call receives `has_next=false`: `noNext` is recorded, the
request count reaches `N+1`, but the end flag is still clear. -/
theorem runCursor_last (N : Nat) :
    ∃ rq : List PageQuery,
      runCalls (cursorServer N) initialRun (N + 1) =
          { p := { noNext := true, cursor := "c" }, reqs := rq, errs := 0 } ∧
        rq.length = N + 1 := by
  obtain ⟨rq, hEq, hLen⟩ := runCursor_le N N (Nat.le_refl N)
  have hr : (cursorServer N
      (({ p := { cursor := if N = 0 then "" else "c" }, reqs := rq, errs := 0 } :
        PagRun).reqs.length)).cursor ≠ "" := by
    dsimp only
    rw [hLen]
    unfold cursorServer
    split_ifs <;> decide
  refine ⟨rq ++ [if N = 0 then ({} : PageQuery) else { cursor := some "c" }], ?_,
    by simp [hLen]⟩
  simp only [runCalls]
  rw [hEq, stepCall_advance _ _ rfl hr]
  by_cases hk0 : N = 0 <;>
    simp [cursorServer, queryAdditions, hLen, hk0, PagRun.mk.injEq, Pagination.mk.injEq]

/-- From the `(N+2)`-nd call on, the state is terminal: the end flag is set
and the request count never grows past `N+1`. -/
theorem runCursor_stalled (N : Nat) :
    ∀ j, ∃ rq : List PageQuery,
      runCalls (cursorServer N) initialRun (N + 2 + j) =
          { p := { noNext := true, end_ := true, cursor := "c" }, reqs := rq, errs := 0 } ∧
        rq.length = N + 1 := by
  intro j
  induction j with
  | zero =>
      obtain ⟨rq, hEq, hLen⟩ := runCursor_last N
      refine ⟨rq, ?_, hLen⟩
      rw [show runCalls (cursorServer N) initialRun (N + 2 + 0) =
            stepCall (cursorServer N) (runCalls (cursorServer N) initialRun (N + 1)) from rfl,
        hEq, stepCall_stalled _ _ rfl]
  | succ j ih =>
      obtain ⟨rq, hEq, hLen⟩ := ih
      refine ⟨rq, ?_, hLen⟩
      rw [show runCalls (cursorServer N) initialRun (N + 2 + (j + 1)) =
            stepCall (cursorServer N) (runCalls (cursorServer N) initialRun (N + 2 + j)) from rfl,
        hEq, stepCall_stalled _ _ rfl]

/-- C2 (amended): against a simulated cursor-mode server answering
`has_next=true` for N pages then `has_next=false`, exactly N+1 `NextPage`
calls issue requests; while pages remain `Next()` is true; after the
`(N+1)`-st call (whose response had `has_next=false`) `Next()` is still
true — one further, request-free `NextPage` call is needed — and from the
`(N+2)`-nd call on `Next()` is false and no request is ever issued again. -/
theorem cursor_pagination_termination (N : Nat) :
    (∀ k, k ≤ N →
        Next (runCalls (cursorServer N) initialRun k).p = true ∧
          (runCalls (cursorServer N) initialRun k).reqs.length = k ∧
          (runCalls (cursorServer N) initialRun k).errs = 0) ∧
      ((runCalls (cursorServer N) initialRun (N + 1)).reqs.length = N + 1 ∧
        (runCalls (cursorServer N) initialRun (N + 1)).p.noNext = true ∧
        Next (runCalls (cursorServer N) initialRun (N + 1)).p = true) ∧
      (∀ j, (runCalls (cursorServer N) initialRun (N + 2 + j)).reqs.length = N + 1 ∧
          Next (runCalls (cursorServer N) initialRun (N + 2 + j)).p = false ∧
          (runCalls (cursorServer N) initialRun (N + 2 + j)).errs = 0) := by
  refine ⟨fun k hk => ?_, ?_, fun j => ?_⟩
  · obtain ⟨rq, hEq, hLen⟩ := runCursor_le N k hk
    rw [hEq]
    exact ⟨rfl, hLen, rfl⟩
  · obtain ⟨rq, hEq, hLen⟩ := runCursor_last N
    rw [hEq]
    exact ⟨hLen, rfl, rfl⟩
  · obtain ⟨rq, hEq, hLen⟩ := runCursor_stalled N j
    rw [hEq]
    exact ⟨hLen, rfl, rfl⟩

/-- C2 witness at N = 2: three requests issued, then the lag call, then
`Next()` false with still three requests. -/
theorem cursor_pagination_termination_witness :
    (Next (runCalls (cursorServer 2) initialRun 1).p = true ∧
        (runCalls (cursorServer 2) initialRun 1).reqs.length = 1 ∧
        (runCalls (cursorServer 2) initialRun 1).errs = 0) ∧
      (runCalls (cursorServer 2) initialRun 3).reqs.length = 3 ∧
      ((runCalls (cursorServer 2) initialRun 4).reqs.length = 3 ∧
        Next (runCalls (cursorServer 2) initialRun 4).p = false ∧
        (runCalls (cursorServer 2) initialRun 4).errs = 0) :=
  ⟨(cursor_pagination_termination 2).1 1 (by decide),
    ((cursor_pagination_termination 2).2.1).1,
    (cursor_pagination_termination 2).2.2 0⟩

/-- C2 counterexample: with N = 1, after exactly N+1 = 2 `NextPage` calls —
both of which issued requests, and the second of which received
`has_next=false` — `Next()` still reports true, where the claim says it
reports false after N+1 calls. -/
theorem cursor_pagination_counterexample :
    (runCalls (cursorServer 1) initialRun 2).reqs.length = 2 ∧
      (runCalls (cursorServer 1) initialRun 2).p.noNext = true ∧
      Next (runCalls (cursorServer 1) initialRun 2).p = true := by
  decide

/-! ## C3 — pagination mode per list -/

/-- A state with an empty stored cursor adds no cursor key to its request. -/
theorem queryAdditions_of_empty_cursor (p : Pagination) (h : p.cursor = "") :
    (queryAdditions p).cursor = none := by
  unfold queryAdditions
  rw [h]
  split_ifs with h1 h2
  · exact absurd rfl h1
  · rfl
  · rfl

/-- A state with offset zero adds no offset key to its request. -/
theorem queryAdditions_of_zero_offset (p : Pagination) (h : p.offset = 0) :
    (queryAdditions p).offset = none := by
  unfold queryAdditions
  split_ifs with h1 h2
  · rfl
  · rw [h] at h2
    exact absurd h2 (by decide)
  · rfl

/-- A `NextPage` call with `noNext` clear whose response has an empty
cursor: the offset branch runs — the request carries the old query
additions, the stored cursor is emptied, and either the missing-limit error
is returned or the offset advances by the page size and exhaustion is
re-checked. -/
theorem stepCall_offsetBranch (server : Nat → PageResponse) (s : PagRun)
    (hn : s.p.noNext = false) (hr : (server s.reqs.length).cursor = "") :
    stepCall server s =
      if s.p.limit = 0 then
        { p := { s.p with
            noNext := !((server s.reqs.length).hasNext),
            cursor := "" },
          reqs := s.reqs ++ [queryAdditions s.p], errs := s.errs + 1 }
      else
        { p := { s.p with
            noNext := decide ((server s.reqs.length).numProducts ≤ s.p.offset + s.p.limit),
            cursor := "", offset := s.p.offset + s.p.limit },
          reqs := s.reqs ++ [queryAdditions s.p], errs := s.errs } := by
  unfold stepCall NextPage
  rw [if_neg (by rw [hn]; exact Bool.false_ne_true)]
  dsimp only
  rw [hr]
  rw [if_pos rfl]
  split_ifs with hl <;> rfl

/-- One call preserves the offset-mode invariant (empty stored cursor, no
cursor key on any issued request) as long as the response has no cursor. -/
theorem stepCall_no_cursor (server : Nat → PageResponse) (s : PagRun)
    (hresp : (server s.reqs.length).cursor = "") (h1 : s.p.cursor = "") :
    (stepCall server s).p.cursor = "" ∧
      ∀ q ∈ (stepCall server s).reqs, q ∈ s.reqs ∨ q.cursor = none := by
  by_cases hn : s.p.noNext = true
  · rw [stepCall_stalled server s hn]
    exact ⟨h1, fun q hq => Or.inl hq⟩
  · have hn2 : s.p.noNext = false := by simpa using hn
    rw [stepCall_offsetBranch server s hn2 hresp]
    split_ifs <;>
      refine ⟨rfl, fun q hq => ?_⟩ <;>
      · rcases List.mem_append.mp hq with hm | hm
        · exact Or.inl hm
        · right
          rw [List.mem_singleton.mp hm]
          exact queryAdditions_of_empty_cursor s.p h1

/-- One call preserves the cursor-mode invariant (offset stays zero, no
offset key on any issued request) as long as the response has a cursor. -/
theorem stepCall_with_cursor (server : Nat → PageResponse) (s : PagRun)
    (hresp : (server s.reqs.length).cursor ≠ "") (h1 : s.p.offset = 0) :
    (stepCall server s).p.offset = 0 ∧
      ∀ q ∈ (stepCall server s).reqs, q ∈ s.reqs ∨ q.offset = none := by
  by_cases hn : s.p.noNext = true
  · rw [stepCall_stalled server s hn]
    exact ⟨h1, fun q hq => Or.inl hq⟩
  · have hn2 : s.p.noNext = false := by simpa using hn
    rw [stepCall_advance server s hn2 hresp]
    refine ⟨h1, fun q hq => ?_⟩
    rcases List.mem_append.mp hq with hm | hm
    · exact Or.inl hm
    · right
      rw [List.mem_singleton.mp hm]
      exact queryAdditions_of_zero_offset s.p h1

/-- C3 (amended): the pagination mode is re-decided on every response from
whether that response carries a cursor token — it is not fixed by the first
response (see the counterexample).  What does hold: when every response of a
list carries no cursor token, the list shows offset behaviour throughout
(the stored cursor stays empty and no request ever carries a cursor key),
and when every response carries a cursor token, the list shows cursor
behaviour throughout (the offset is never advanced from 0 and no request
ever carries an offset key). -/
theorem pagination_mode_per_response (server : Nat → PageResponse) (lim : Int) :
    ((∀ n, (server n).cursor = "") → ∀ k,
        (runCalls server (initialRunWithLimit lim) k).p.cursor = "" ∧
          ∀ q ∈ (runCalls server (initialRunWithLimit lim) k).reqs, q.cursor = none) ∧
    ((∀ n, (server n).cursor ≠ "") → ∀ k,
        (runCalls server (initialRunWithLimit lim) k).p.offset = 0 ∧
          ∀ q ∈ (runCalls server (initialRunWithLimit lim) k).reqs, q.offset = none) := by
  constructor
  · intro hresp k
    induction k with
    | zero => exact ⟨rfl, by simp [runCalls, initialRunWithLimit]⟩
    | succ k ih =>
        obtain ⟨h1, h2⟩ := ih
        simp only [runCalls]
        obtain ⟨g1, g2⟩ := stepCall_no_cursor server _ (hresp _) h1
        exact ⟨g1, fun q hq => (g2 q hq).elim (fun hm => h2 q hm) id⟩
  · intro hresp k
    induction k with
    | zero => exact ⟨rfl, by simp [runCalls, initialRunWithLimit]⟩
    | succ k ih =>
        obtain ⟨h1, h2⟩ := ih
        simp only [runCalls]
        obtain ⟨g1, g2⟩ := stepCall_with_cursor server _ (hresp _) h1
        exact ⟨g1, fun q hq => (g2 q hq).elim (fun hm => h2 q hm) id⟩

/-- C3 witness: two concrete traces — an all-offset server (page size 50)
never sees a cursor key in three calls, and an all-cursor server never sees
an offset key in three calls. -/
theorem pagination_mode_per_response_witness :
    ((runCalls (offsetServer 120) (initialRunWithLimit 50) 3).p.cursor = "" ∧
        ∀ q ∈ (runCalls (offsetServer 120) (initialRunWithLimit 50) 3).reqs,
          q.cursor = none) ∧
      ((runCalls (cursorServer 5) (initialRunWithLimit 0) 3).p.offset = 0 ∧
        ∀ q ∈ (runCalls (cursorServer 5) (initialRunWithLimit 0) 3).reqs,
          q.offset = none) :=
  ⟨(pagination_mode_per_response (offsetServer 120) 50).1 (fun _ => rfl) 3,
    (pagination_mode_per_response (cursorServer 5) 0).2
      (fun n => by unfold cursorServer; split_ifs <;> decide) 3⟩

/-- C3 counterexample: against a server whose first response carries no
cursor token (offset mode is selected: the offset advances to 50 and the
second request carries `offset=50`) but whose second response carries the
cursor token `abc`, the third request carries `cursor=abc` — the cursor
field of a later response is consulted after offset mode was selected,
which the claim says never happens. -/
theorem pagination_mode_counterexample :
    (runCalls mixedServer (initialRunWithLimit 50) 1).p.offset = 50 ∧
      (runCalls mixedServer (initialRunWithLimit 50) 3).reqs =
        [{}, { offset := some 50 }, { cursor := some "abc" }] := by
  constructor <;> decide

/-! ## C7 — offset-mode exhaustion -/

/-- C7 (amended): in offset mode with page-size limit 50 and reported total
count 120, the three `NextPage` calls issue requests at offsets 0 (no offset
key), 50 and 100, the offset advancing by the page size on each response
(50, 100, 150); the third response sets the no-next flag (150 ≥ 120), but
`Next()` still reports true until a fourth, request-free call sets the end
flag, after which `Next()` is false and no further request is ever issued. -/
theorem offset_pagination_exhaustion :
    (runCalls (offsetServer 120) (initialRunWithLimit 50) 3).reqs =
        [{}, { offset := some 50 }, { offset := some 100 }] ∧
      (runCalls (offsetServer 120) (initialRunWithLimit 50) 1).p.offset = 50 ∧
      (runCalls (offsetServer 120) (initialRunWithLimit 50) 2).p.offset = 100 ∧
      (runCalls (offsetServer 120) (initialRunWithLimit 50) 3).p.offset = 150 ∧
      (runCalls (offsetServer 120) (initialRunWithLimit 50) 2).p.noNext = false ∧
      (runCalls (offsetServer 120) (initialRunWithLimit 50) 3).p.noNext = true ∧
      Next (runCalls (offsetServer 120) (initialRunWithLimit 50) 3).p = true ∧
      Next (runCalls (offsetServer 120) (initialRunWithLimit 50) 4).p = false ∧
      (runCalls (offsetServer 120) (initialRunWithLimit 50) 4).reqs.length = 3 ∧
      (runCalls (offsetServer 120) (initialRunWithLimit 50) 4).errs = 0 := by
  decide

/-- C7 counterexample: after the three `NextPage` calls that issued the
requests at offsets 0, 50 and 100, `Next()` still reports true — a fourth
call is needed before it is false — where the claim says `Next()` is false
after those requests. -/
theorem offset_pagination_counterexample :
    (runCalls (offsetServer 120) (initialRunWithLimit 50) 3).reqs.length = 3 ∧
      Next (runCalls (offsetServer 120) (initialRunWithLimit 50) 3).p = true := by
  decide

/-- C8 witness: a batch with one failed and one successful result reports
exactly the failed id, with its reason, and flags the overall error. -/
theorem cancelOrders_failure_map_witness :
    (mapLookup (cancelErrorsOf
        [⟨false, "DUPLICATE_CANCEL_REQUEST", "o1"⟩, ⟨true, "", "o2"⟩]) "o1").isSome = true ∧
      (∃ r ∈ [(⟨false, "DUPLICATE_CANCEL_REQUEST", "o1"⟩ : CancelResult), ⟨true, "", "o2"⟩],
          r.id = "o1" ∧ r.success = false ∧ r.error = "DUPLICATE_CANCEL_REQUEST") ∧
      cancelOrdersErrFlag [⟨false, "DUPLICATE_CANCEL_REQUEST", "o1"⟩, ⟨true, "", "o2"⟩] = true :=
  ⟨((cancelOrders_failure_map _).1 "o1").mpr
      ⟨⟨false, "DUPLICATE_CANCEL_REQUEST", "o1"⟩, by decide⟩,
    (cancelOrders_failure_map _).2.1 "o1" "DUPLICATE_CANCEL_REQUEST" (by decide),
    ((cancelOrders_failure_map _).2.2).mpr ⟨⟨false, "DUPLICATE_CANCEL_REQUEST", "o1"⟩, by decide⟩⟩

/-! ## C6 — signature computation -/

/-- Folding UTF-8 encoding over characters distributes over a trailing
accumulator. -/
theorem foldr_utf8_append (l : List Char) (acc : List Nat) :
    l.foldr (fun c acc => utf8Bytes c ++ acc) acc =
      l.foldr (fun c acc => utf8Bytes c ++ acc) [] ++ acc := by
  induction l with
  | nil => simp
  | cons c l ih => simp [ih, List.append_assoc]

/-- Go byte conversion distributes over string concatenation: the bytes of
`s ++ t` are the bytes of `s` followed by the bytes of `t` — there is no
separator. -/
theorem strBytes_append (s t : String) : strBytes (s ++ t) = strBytes s ++ strBytes t := by
  show (s.data ++ t.data).foldr (fun c acc => utf8Bytes c ++ acc) [] = _
  rw [List.foldr_append]
  exact foldr_utf8_append s.data (strBytes t)

/-- Every hex digit the encoder emits for a digit value below 16 is in the
lowercase hex alphabet. -/
theorem hexDigit_mem (n : Nat) (h : n < 16) : hexDigit n ∈ lowercaseHexChars := by
  interval_cases n <;> decide

/-- Every character of a hex-encoded byte list is a lowercase hex digit. -/
theorem hexEncode_chars (bs : List Nat) :
    ∀ c ∈ (hexEncode bs).data, c ∈ lowercaseHexChars := by
  induction bs with
  | nil => intro c hc; simp [hexEncode] at hc
  | cons b bs ih =>
      intro c hc
      have hc2 : c = hexDigit (b / 16 % 16) ∨ c = hexDigit (b % 16) ∨
          c ∈ (hexEncode bs).data := by
        simpa [hexEncode, List.mem_cons] using hc
      rcases hc2 with rfl | rfl | hc3
      · exact hexDigit_mem _ (Nat.mod_lt _ (by decide))
      · exact hexDigit_mem _ (Nat.mod_lt _ (by decide))
      · exact ih c hc3

/-- Hex encoding emits two characters per byte. -/
theorem hexEncode_length (bs : List Nat) : (hexEncode bs).length = 2 * bs.length := by
  induction bs with
  | nil => rfl
  | cons b bs ih =>
      show (hexEncode (b :: bs)).data.length = 2 * (b :: bs).length
      have : (hexEncode (b :: bs)).data =
          hexDigit (b / 16 % 16) :: hexDigit (b % 16) :: (hexEncode bs).data := rfl
      rw [this]
      simp only [List.length_cons]
      rw [show (hexEncode bs).data.length = (hexEncode bs).length from rfl, ih]
      ring

/-- A SHA-256 digest is 32 bytes. -/
theorem sha256Bytes_length (msg : List Nat) : (sha256Bytes msg).length = 32 := by
  rfl

/-- An HMAC-SHA256 digest is 32 bytes. -/
theorem hmacSha256_length (key msg : List Nat) : (hmacSha256 key msg).length = 32 :=
  sha256Bytes_length _

/-- C6: `sign` returns the hex encoding — 64 characters, all from the
lowercase hex alphabet — of HMAC-SHA256 keyed by the raw secret bytes over
the byte-for-byte concatenation of timestamp, method, resource path and
body, with no separators; and it is a pure function — equal inputs always
produce the same hex digest. -/
theorem sign_spec (secret timestamp method resource : String) (data : List Nat) :
    sign secret timestamp method resource data =
        hexEncode (hmacSha256 (strBytes secret)
          (strBytes timestamp ++ strBytes method ++ strBytes resource ++ data)) ∧
      (∀ c ∈ (sign secret timestamp method resource data).data, c ∈ lowercaseHexChars) ∧
      (sign secret timestamp method resource data).length = 64 ∧
      (∀ s2 t2 m2 r2 d2, secret = s2 → timestamp = t2 → method = m2 → resource = r2 →
        data = d2 → sign secret timestamp method resource data = sign s2 t2 m2 r2 d2) := by
  refine ⟨?_, fun c hc => hexEncode_chars _ c hc, ?_, ?_⟩
  · unfold sign
    rw [strBytes_append, strBytes_append]
  · show (hexEncode _).length = 64
    rw [hexEncode_length, hmacSha256_length]
  · intro s2 t2 m2 r2 d2 h1 h2 h3 h4 h5
    rw [h1, h2, h3, h4, h5]

/-- C6 witness: the HMAC equation and determinism at concrete inputs (the
RFC 4231 test-vector key and message, split across the three string
arguments). -/
theorem sign_spec_witness :
    sign "Jefe" "what do ya want" " for" " nothing?" [] =
        hexEncode (hmacSha256 (strBytes "Jefe")
          (strBytes "what do ya want" ++ strBytes " for" ++ strBytes " nothing?" ++ [])) ∧
      sign "Jefe" "what do ya want" " for" " nothing?" [] =
        sign "Jefe" "what do ya want" " for" " nothing?" [] :=
  ⟨(sign_spec "Jefe" "what do ya want" " for" " nothing?" []).1,
    (sign_spec "Jefe" "what do ya want" " for" " nothing?" []).2.2.2
      "Jefe" "what do ya want" " for" " nothing?" [] rfl rfl rfl rfl rfl⟩

set_option maxRecDepth 100000 in
/-- The SHA-256 implementation matches the FIPS 180-4 test vector for
`abc`. -/
theorem sha256_fips_vector :
    hexEncode (sha256Bytes (strBytes "abc")) =
      "ba7816bf8f01cfea414140de5dae2223b00361a396177a9cb410ff61f20015ad" := by
  decide

set_option maxRecDepth 100000 in
/-- The signer matches HMAC-SHA256 test case 2 of RFC 4231 (key `Jefe`,
message `what do ya want for nothing?`), the message split across the
timestamp, method and resource arguments — demonstrating the
no-separator concatenation end to end. -/
theorem sign_rfc4231_vector :
    sign "Jefe" "what do ya want" " for" " nothing?" [] =
      "5bdcc146bf60754e6a042426089575c75a003f089d2739839dec58b964ec3843" := by
  decide

end CoinbaseTrade
